import Mathlib

/-!
Shallow embedding of the DMoN-Rewrite orchestration and visualization glue
(src/train_folds.py and src/utilities/visualization.py), together with
theorems settling the specification claims about it.
-/

namespace DMoNRewrite

/-- A JSON value as loaded for a hyperparameter configuration: scalars
(strings, numbers, booleans) and nested objects. A number is carried as
the decimal literal that Python f-string interpolation prints for it. -/
inductive JVal where
  | str (s : String)
  | num (lit : String)
  | bool (b : Bool)
  | obj (fields : List (String × JVal))

/-- Interpolation of a configuration value into an f-string: strings are
inserted verbatim, numbers as their Python literal, booleans as the tokens
True and False. (A nested object never reaches an interpolation slot of
train_folds for the configurations under study, so its repr is abstracted.) -/
def JVal.interp : JVal → String
  | JVal.str s => s
  | JVal.num lit => lit
  | JVal.bool true => "True"
  | JVal.bool false => "False"
  | JVal.obj _ => "<dict>"

/-- Python single-character str.split on a list of characters: splits at
every occurrence of the separator, keeping empty pieces. The result is
never empty. -/
def splitChars (sep : Char) : List Char → List (List Char)
  | [] => [[]]
  | c :: cs =>
    if c = sep then [] :: splitChars sep cs
    else
      match splitChars sep cs with
      | [] => [[c]]
      | piece :: pieces => (c :: piece) :: pieces

/-- Python single-character str.split on a string. -/
def strSplit (sep : Char) (s : String) : List String :=
  (splitChars sep s.data).map String.mk

/-- An uncaught Python exception raised while train_folds reads the
configuration: a KeyError from a missing key, or a TypeError from
subscripting a non-dict value found under the key common. -/
inductive PyErr where
  | keyError (key : String)
  | typeError
deriving DecidableEq

/-- os.path.basename for the posix paths used here: the component after
the final slash. -/
def basename (p : String) : String := (strSplit '/' p).getLastD p

/-- os.path.join as it is called in this code, where the first component
is nonempty, does not end in a slash, and the second is relative. -/
def path_join (a b : String) : String := a ++ "/" ++ b

/-- The trainer command line built in the body of the fold loop of
train_folds, one field per slot of its f-string (interpolated values are
already rendered to the text that appears on the command line). -/
structure TrainerCmd where
  experiment_folder : String
  architecture : String
  collapse_regularization : String
  dropout_rate : String
  n_clusters : String
  n_epochs : String
  learning_rate : String
  frustum_length : String
  frustum_angle : String
  edge_cutoff : String
  features_as_pos : String
  dataset_path : String
  edges_from_gt : String
  select_frames_random : String
deriving DecidableEq, Inhabited

/-- The exact command string passed to subprocess.run for one fold,
mirroring the concatenated f-string of train_folds. -/
def TrainerCmd.render (c : TrainerCmd) : String :=
  "python src/train.py -F " ++ c.experiment_folder ++ " with " ++
  "common.architecture=\"" ++ c.architecture ++ "\" " ++
  "common.collapse_regularization=" ++ c.collapse_regularization ++ " " ++
  "common.dropout_rate=" ++ c.dropout_rate ++ " " ++
  "common.n_clusters=" ++ c.n_clusters ++ " " ++
  "n_epochs=" ++ c.n_epochs ++ " " ++
  "common.learning_rate=" ++ c.learning_rate ++ " " ++
  "common.frustum_length=" ++ c.frustum_length ++ " " ++
  "common.frustum_angle=" ++ c.frustum_angle ++ " " ++
  "common.edge_cutoff=" ++ c.edge_cutoff ++ " " ++
  "common.features_as_pos=" ++ c.features_as_pos ++ " " ++
  "common.dataset_path=" ++ c.dataset_path ++ " " ++
  "common.edges_from_gt=" ++ c.edges_from_gt ++ " " ++
  "common.select_frames_random=" ++ c.select_frames_random ++ " " ++
  "-d"

/-- The body of the fold loop of train_folds: the command for one fold,
given the five configuration values that are interpolated (already
rendered) and the base dataset path. The remaining slots are filled with
the constants the source hardcodes: n_epochs 50, frustum_length 1,
frustum_angle math.pi divided by 4, edge_cutoff 0.4, features_as_pos
True, edges_from_gt False, select_frames_random True. -/
def fold_cmd (architecture collapse_regularization dropout_rate n_clusters
    learning_rate : String) (dataset_path : String) (fold : Nat) : TrainerCmd :=
  { experiment_folder := "experiments_" ++ basename dataset_path ++ "_folds_new_edge_weights"
    architecture := architecture
    collapse_regularization := collapse_regularization
    dropout_rate := dropout_rate
    n_clusters := n_clusters
    n_epochs := "50"
    learning_rate := learning_rate
    frustum_length := "1"
    frustum_angle := "0.7853981633974483"
    edge_cutoff := "0.4"
    features_as_pos := "True"
    dataset_path := path_join (dataset_path ++ "_fold" ++ toString fold) "train"
    edges_from_gt := "False"
    select_frames_random := "True" }

/-- The step best_config = best_config["common"] performed when the key
common is present (a TypeError results downstream when its value is not a
dict). -/
def unwrap_common (best_config : List (String × JVal)) :
    Except PyErr (List (String × JVal)) :=
  match best_config.lookup "common" with
  | some (JVal.obj fields) => Except.ok fields
  | some _ => Except.error PyErr.typeError
  | none => Except.ok best_config

/-- train_folds from src/train_folds.py. It unwraps a common sub-object
when present, subscripts the hyperparameter keys in source order (an
uncaught KeyError on the first missing one; edges_from_gt alone is
defaulted to False when absent), and returns the five fold commands
handed to subprocess.run, for fold 1 up to 5. The values read for
frustum_length, frustum_angle, edge_cutoff, features_as_pos and
edges_from_gt are bound but never used: the command hardcodes constants
in their slots (see fold_cmd). -/
def train_folds (best_config : List (String × JVal)) (dataset_path : String) :
    Except PyErr (List TrainerCmd) :=
  match unwrap_common best_config with
  | Except.error e => Except.error e
  | Except.ok cfg =>
  match cfg.lookup "architecture" with
  | none => Except.error (PyErr.keyError "architecture")
  | some architecture =>
  match cfg.lookup "dropout_rate" with
  | none => Except.error (PyErr.keyError "dropout_rate")
  | some dropout_rate =>
  match cfg.lookup "collapse_regularization" with
  | none => Except.error (PyErr.keyError "collapse_regularization")
  | some collapse_regularization =>
  match cfg.lookup "n_clusters" with
  | none => Except.error (PyErr.keyError "n_clusters")
  | some n_clusters =>
  match cfg.lookup "learning_rate" with
  | none => Except.error (PyErr.keyError "learning_rate")
  | some learning_rate =>
  match cfg.lookup "frustum_length" with
  | none => Except.error (PyErr.keyError "frustum_length")
  | some frustum_length =>
  match cfg.lookup "frustum_angle" with
  | none => Except.error (PyErr.keyError "frustum_angle")
  | some frustum_angle =>
  match cfg.lookup "edge_cutoff" with
  | none => Except.error (PyErr.keyError "edge_cutoff")
  | some edge_cutoff =>
  match cfg.lookup "features_as_pos" with
  | none => Except.error (PyErr.keyError "features_as_pos")
  | some features_as_pos =>
  let edges_from_gt := (cfg.lookup "edges_from_gt").getD (JVal.bool false)
  Except.ok ((List.range' 1 5).map
    (fold_cmd architecture.interp collapse_regularization.interp
      dropout_rate.interp n_clusters.interp learning_rate.interp dataset_path))

/-- The command strings executed by subprocess.run over the five folds. -/
def train_folds_commands (best_config : List (String × JVal))
    (dataset_path : String) : Except PyErr (List String) :=
  (train_folds best_config dataset_path).map (fun cmds => cmds.map TrainerCmd.render)

/-- The hyperparameter keys train_folds subscripts unconditionally, in
source order. -/
def required_keys : List String :=
  ["architecture", "dropout_rate", "collapse_regularization", "n_clusters",
   "learning_rate", "frustum_length", "frustum_angle", "edge_cutoff",
   "features_as_pos"]

/-- The space-separated tokens of a command line. -/
def cmdTokens (c : String) : List String := strSplit ' ' c

/-- A complete flat configuration whose frustum, cutoff and boolean values
all differ from the constants train_folds hardcodes into the command. -/
def cfgA : List (String × JVal) :=
  [("architecture", JVal.str "GCN_64"),
   ("dropout_rate", JVal.num "0.5"),
   ("collapse_regularization", JVal.num "0.2"),
   ("n_clusters", JVal.num "8"),
   ("learning_rate", JVal.num "0.001"),
   ("frustum_length", JVal.num "2.0"),
   ("frustum_angle", JVal.num "0.5"),
   ("edge_cutoff", JVal.num "0.9"),
   ("features_as_pos", JVal.bool false),
   ("edges_from_gt", JVal.bool true)]

/-- cfgA with the edges_from_gt key removed. -/
def cfgB : List (String × JVal) :=
  [("architecture", JVal.str "GCN_64"),
   ("dropout_rate", JVal.num "0.5"),
   ("collapse_regularization", JVal.num "0.2"),
   ("n_clusters", JVal.num "8"),
   ("learning_rate", JVal.num "0.001"),
   ("frustum_length", JVal.num "2.0"),
   ("frustum_angle", JVal.num "0.5"),
   ("edge_cutoff", JVal.num "0.9"),
   ("features_as_pos", JVal.bool false)]

/-- cfgA with the dropout_rate key removed. -/
def cfgC : List (String × JVal) :=
  [("architecture", JVal.str "GCN_64"),
   ("collapse_regularization", JVal.num "0.2"),
   ("n_clusters", JVal.num "8"),
   ("learning_rate", JVal.num "0.001"),
   ("frustum_length", JVal.num "2.0"),
   ("frustum_angle", JVal.num "0.5"),
   ("edge_cutoff", JVal.num "0.9"),
   ("features_as_pos", JVal.bool false),
   ("edges_from_gt", JVal.bool true)]

/-! Visualization utilities: frame-index parsing and lookup
(draw_camera_cocktail), and the video backend (draw_camera). -/

/-- Python str.splitlines for text whose only line terminator is the
newline character: like splitting on it, except that a trailing newline
does not produce a final empty line. -/
def splitlines (s : String) : List String :=
  if s.data.isEmpty then []
  else if s.data.getLast? = some '\n' then (strSplit '\n' s).dropLast
  else strSplit '\n' s

/-- Python str.join with a dot separator, as in the timestamp assembly of
the index-reading loop. -/
def joinWithDot : List String → String
  | [] => ""
  | [s] => s
  | s :: rest => s ++ "." ++ joinWithDot rest

/-- The value of a nonempty all-digit character list, none otherwise. -/
def parseNatDigits (s : List Char) : Option Nat :=
  if s.isEmpty then none
  else s.foldl (fun acc c =>
    match acc with
    | none => none
    | some n => if c.isDigit then some (n * 10 + (c.toNat - 48)) else none)
    (some 0)

/-- Python float() on the decimal literals arising from an index file: an
optional minus sign, then an integer part and an optional fractional part
separated by one dot, at least one of them nonempty (none models the
ValueError float() raises otherwise; exponent forms do not arise from
these files). The value of iii.fff is built as the one exact ratio
(iii * 10 ^ k + fff) / 10 ^ k where k is the length of fff; the double
rounding of the source is not modelled. -/
def parseDecimal (s : String) : Option ℚ :=
  let neg : Bool := s.data.head? = some '-'
  let sign : Int := if neg then -1 else 1
  let body := if neg then s.data.tail else s.data
  match splitChars '.' body with
  | [intPart] => (parseNatDigits intPart).map (fun n => mkRat (sign * n) 1)
  | [intPart, fracPart] =>
    if intPart.isEmpty && fracPart.isEmpty then none
    else
      match (if intPart.isEmpty then some 0 else parseNatDigits intPart),
            (if fracPart.isEmpty then some 0 else parseNatDigits fracPart) with
      | some i, some f =>
        some (mkRat (sign * (i * 10 ^ fracPart.length + f)) (10 ^ fracPart.length))
      | _, _ => none
  | _ => none

/-- The per-line work of the index-reading loop of get_cached_index_file:
the first space-separated token is the image file, and the remaining
tokens joined with a dot are fed to float(). none models an uncaught
ValueError from float(). -/
def parse_index_line (line : String) : Option (String × ℚ) :=
  let toks := strSplit ' ' line
  (parseDecimal (joinWithDot toks.tail)).map
    (fun t => (toks.headD "", t))

/-- The loop of get_cached_index_file over all lines but the last
(read().splitlines() sliced by [:-1]): the parallel lists frame_times and
image_files, in file order. -/
def parse_index (content : String) : Option (List ℚ × List String) :=
  ((splitlines content).dropLast.mapM parse_index_line).map
    (fun entries => (entries.map Prod.snd, entries.map Prod.fst))

/-- One run of the binary-search loop behind np.searchsorted with
side equal to left (bisect_left): fuel bounds the iteration count and is
passed as hi minus lo, which strictly decreases each iteration, so the
fuel-exhausted branch is never taken on the actual calls. -/
def bisectLeftLoop (a : List ℚ) (x : ℚ) : Nat → Nat → Nat → Nat
  | 0, lo, _hi => lo
  | Nat.succ fuel, lo, hi =>
    if lo < hi then
      let mid := (lo + hi) / 2
      if a.getD mid 0 < x then bisectLeftLoop a x fuel (mid + 1) hi
      else bisectLeftLoop a x fuel lo mid
    else lo

/-- find_nearest_idx from draw_camera_cocktail: literally
np.searchsorted(array, value, side equal to left), the bisect-left
insertion index. -/
def find_nearest_idx (array : List ℚ) (value : ℚ) : Nat :=
  bisectLeftLoop array value array.length 0 array.length

/-- The cache of the lru_cache(maxsize=1) wrapping the zero-argument
nested function get_cached_index_file: empty, or the one memoized result. -/
def IndexCache := Option (List ℚ × List String)

/-- One call of get_cached_index_file() on a given cache state: the
parsed index, the updated cache, and the number of index-file reads the
call performs (0 on a cache hit, 1 on a miss). A ValueError while
parsing propagates (outer none) and caches nothing. -/
def get_cached_index_file (content : String) (cache : IndexCache) :
    Option ((List ℚ × List String) × IndexCache × Nat) :=
  match cache with
  | some v => some (v, some v, 0)
  | none => (parse_index content).map (fun v => (v, some v, 1))

/-- One invocation of draw_camera_cocktail on the index-file content of
its camera path. The nested get_cached_index_file is defined, and its
lru_cache created empty, inside every invocation, so each invocation
starts from an empty cache. Returns the filename of the image drawn
(none models an uncaught exception: a ValueError from parsing, or the
IndexError when the lookup index falls outside image_files) and the
number of index-file reads performed. -/
def draw_camera_cocktail (content : String) (timestamp : ℚ) :
    Option String × Nat :=
  match get_cached_index_file content (none : IndexCache) with
  | none => (none, 1)
  | some ((frame_times, image_files), _, reads) =>
    (image_files.get? (find_nearest_idx frame_times timestamp), reads)

/-- Repeated invocations of draw_camera_cocktail with one fixed camera
path (hence one fixed index-file content), one per query timestamp: the
total number of index-file reads performed. -/
def draw_camera_cocktail_total_reads (content : String)
    (timestamps : List ℚ) : Nat :=
  (timestamps.map (fun t => (draw_camera_cocktail content t).2)).sum

/-- An action performed on a matplotlib axis by the camera panels. The
frame drawn by imshow is abstracted to an identifier. -/
inductive AxAction where
  | imshow (frame : Nat)
  | axisOff
  | setTitle (t : String)
deriving DecidableEq

/-- Python int() truncation toward zero on a rational. -/
def pyInt (q : ℚ) : Int := q.num.tdiv (q.den : Int)

/-- The seek performed on the cv2 capture by draw_camera before reading. -/
inductive SeekMode where
  | posFrames (n : Int)
  | posMsec (ms : ℚ)
deriving DecidableEq

/-- draw_camera from src/utilities/visualization.py. The cv2 capture is
abstracted by the outcome of cap.read(): some frame, or none when no
frame is returned. Returns the seek performed and the axis actions: the
frame is shown only when the read succeeds, and in every case the axis
is turned off and titled Camera View; a failed read is passed over
silently. -/
def draw_camera (video_path : String) (timestamp : ℚ)
    (readResult : Option Nat) : SeekMode × List AxAction :=
  let seek := if video_path.endsWith "hd_00_07.mp4"
    then SeekMode.posFrames (pyInt timestamp)
    else SeekMode.posMsec (timestamp * 1000)
  (seek,
    (match readResult with
     | some frame => [AxAction.imshow frame]
     | none => []) ++ [AxAction.axisOff, AxAction.setTitle "Camera View"])

/-! Scene graphs: get_gt_graph and the group loop of draw_gt_graph. -/

/-- The attributes a scene-graph node carries: a feature vector (position
x, y, heading, heading offset), a membership label, a display color, the
person number, and a timestamp. Feature values are exact rationals here
where the source holds doubles. -/
structure NodeData where
  feats : List ℚ
  membership : Nat
  color : String
  person_no : Nat
  ts : ℚ
deriving DecidableEq

/-- A networkx graph as the visualization code consumes it: the node dict
in insertion order (node key to attributes) and the edge list. -/
structure PyGraph where
  nodes : List (Nat × NodeData)
  edges : List (Nat × Nat)
deriving DecidableEq

/-- nx.get_node_attributes(graph, the membership attribute): node key
paired with its membership label, in node order. -/
def node_memberships (g : PyGraph) : List (Nat × Nat) :=
  g.nodes.map (fun kv => (kv.1, kv.2.membership))

/-- One defaultdict(list) update of the reverse-membership map of
get_gt_graph: append key k to the list held for value v, creating the
entry at the end on first sight of v. -/
def insertMembership : List (Nat × List Nat) → Nat → Nat → List (Nat × List Nat)
  | [], v, k => [(v, [k])]
  | (v0, grp) :: rest, v, k =>
    if v0 = v then (v0, grp ++ [k]) :: rest
    else (v0, grp) :: insertMembership rest v k

/-- The reverse_memberships loop of get_gt_graph: each membership value
to the list of node keys carrying it, entries in order of first
appearance, keys in node order. -/
def reverse_memberships (ms : List (Nat × Nat)) : List (Nat × List Nat) :=
  ms.foldl (fun acc kv => insertMembership acc kv.2 kv.1) []

/-- itertools.combinations of a list taken 2 at a time, in its order. -/
def combinations2 : List Nat → List (Nat × Nat)
  | [] => []
  | x :: xs => xs.map (fun y => (x, y)) ++ combinations2 xs

/-- The edges get_gt_graph adds: for every membership group, one edge per
combination of two of its members. -/
def gt_edges (ms : List (Nat × Nat)) : List (Nat × Nat) :=
  ((reverse_memberships ms).map (fun vg => combinations2 vg.2)).flatten

/-- get_gt_graph from src/utilities/visualization.py: a copy of the
graph, all edges of the original removed, and an edge added between
every two nodes sharing a membership label. -/
def get_gt_graph (g : PyGraph) : PyGraph :=
  { nodes := g.nodes, edges := gt_edges (node_memberships g) }

/-- The number of occurrences of the ordered pair (a, b) in an edge list. -/
def countQ (es : List (Nat × Nat)) (a b : Nat) : Nat :=
  es.countP (fun e => e == (a, b))

/-- The number of times the unordered pair of a and b occurs in an edge
list (an nx.Graph identifies the two orientations). -/
def edgeCount (es : List (Nat × Nat)) (a b : Nat) : Nat :=
  countQ es a b + countQ es b a

/-- Insertion of a natural into a sorted list. -/
def insertSorted (x : Nat) : List Nat → List Nat
  | [] => [x]
  | y :: ys => if x ≤ y then x :: y :: ys else y :: insertSorted x ys

/-- Insertion sort of a list of naturals. -/
def sortNat : List Nat → List Nat
  | [] => []
  | x :: xs => insertSorted x (sortNat xs)

/-- np.unique: the sorted distinct values of the array. -/
def np_unique (l : List Nat) : List Nat := sortNat l.dedup

/-- The groups list of draw_gt_graph: for every distinct membership value
(np.unique), the person_no entries at the positions whose membership
equals it (np.argwhere indexing into the parallel person_ids array). -/
def groupsOf (g : PyGraph) : List (List Nat) :=
  let person_ids := g.nodes.map (fun kv => kv.2.person_no)
  let membership := g.nodes.map (fun kv => kv.2.membership)
  (np_unique membership).map (fun i =>
    ((membership.zip person_ids).filter (fun p => p.1 == i)).map Prod.snd)

/-- graph.nodes[k]: the attribute record at node key k. The default is
reached only where Python would raise a KeyError; in the graphs the code
draws, nodes are keyed by person_no and the subscript succeeds. -/
def nodeDataOf (g : PyGraph) (k : Nat) : NodeData :=
  (g.nodes.lookup k).getD { feats := [], membership := 0, color := "", person_no := 0, ts := 0 }

/-- points_for_convex_hull collected for one group: feats[:2] of each
member, with multiplicity, in group order. -/
def points_for_convex_hull (g : PyGraph) (group : List Nat) : List (List ℚ) :=
  group.map (fun person_index => (nodeDataOf g person_index).feats.take 2)

/-- The enclosure draw_gt_graph draws around one membership group. -/
inductive Enclosure where
  | hull (pts : List (List ℚ))
  | line (pts : List (List ℚ))
  | nothing
deriving DecidableEq

/-- The branch on the collected points of one group in draw_gt_graph:
ConvexHull plus draw_convex_hull when more than 2 points were collected,
the draw_group_indicator translucent line on exactly 2, and no enclosure
otherwise. -/
def group_enclosure (pts : List (List ℚ)) : Enclosure :=
  if 2 < pts.length then Enclosure.hull pts
  else if pts.length = 2 then Enclosure.line pts
  else Enclosure.nothing

/-- The group loop of draw_gt_graph: for each group in order, the
enclosure drawn and the positions at which draw_person puts a person
marker (one per member). -/
def draw_gt_graph_groups (g : PyGraph) : List (Enclosure × List (List ℚ)) :=
  (groupsOf g).map (fun group =>
    let pts := points_for_convex_hull g group
    (group_enclosure pts, pts))

/-- A node whose key equals its person_no, at position (x, y) with
heading 0, as in the toy scenes. -/
def node (k : Nat) (x y : ℚ) (m : Nat) (c : String) : Nat × NodeData :=
  (k, { feats := [x, y, 0, 0], membership := m, color := c, person_no := k, ts := 0 })

/-- Three people sharing one membership, two of them standing at the same
position: the collected hull points hold only two distinct values. -/
def gHull : PyGraph :=
  { nodes := [node 0 0 0 0 "#38761d", node 1 0 0 0 "#38761d", node 2 1 1 0 "#38761d"],
    edges := [] }

/-- Two people sharing one membership at distinct positions. -/
def gPair : PyGraph :=
  { nodes := [node 0 0 0 0 "#38761d", node 1 1 0 0 "#38761d"],
    edges := [] }

/-- The ten-node toy scene of the specification: five memberships of two
people each. -/
def gToy : PyGraph :=
  { nodes := [node 0 0 0 0 "#27c7bd", node 1 1 0 0 "#27c7bd",
              node 2 3 3 1 "#01579b", node 3 4 3 1 "#01579b",
              node 4 6 6 2 "#fb8c00", node 5 7 6 2 "#fb8c00",
              node 6 9 9 3 "#e77865", node 7 10 9 3 "#e77865",
              node 8 12 12 4 "#cbeaad", node 9 13 12 4 "#cbeaad"],
    edges := [] }


/-- The node keys of ms carrying membership value v, in order: the
specification of the groups reverse_memberships accumulates. -/
def keysWithValue (ms : List (Nat × Nat)) (v : Nat) : List Nat :=
  (ms.filter (fun kv => kv.2 == v)).map Prod.fst

/-- Composition of an existing optional group with newly appended keys,
used to state the foldl invariant of reverse_memberships. -/
def combineGroup : Option (List Nat) → List Nat → Option (List Nat)
  | some grp, l => some (grp ++ l)
  | none, [] => none
  | none, l => some l

/-! Theorems: helper lemmas, then the claim theorems. -/

theorem lookup_cons_if {β : Type} (w v0 : Nat) (g0 : β) (tl : List (Nat × β)) :
    List.lookup w ((v0, g0) :: tl) = if w = v0 then some g0 else List.lookup w tl := by
  rw [List.lookup_cons]
  by_cases h : w = v0
  · simp [h]
  · simp [h, beq_false_of_ne h]

theorem lookup_insertMembership (acc : List (Nat × List Nat)) (v k w : Nat) :
    (insertMembership acc v k).lookup w =
      if w = v then some (((acc.lookup v).getD []) ++ [k]) else acc.lookup w := by
  induction acc with
  | nil =>
    by_cases hwv : w = v
    · subst hwv; simp [insertMembership, lookup_cons_if]
    · simp [insertMembership, lookup_cons_if, hwv]
  | cons hd tl ih =>
    obtain ⟨v0, g0⟩ := hd
    by_cases h0 : v0 = v
    · subst h0
      by_cases hwv : w = v0
      · subst hwv; simp [insertMembership, lookup_cons_if]
      · simp [insertMembership, lookup_cons_if, hwv]
    · have h0' : ¬ v = v0 := by omega
      by_cases hwv : w = v0
      · subst hwv
        have hv : ¬ w = v := by omega
        simp [insertMembership, h0, lookup_cons_if, hv]
      · simp [insertMembership, h0, lookup_cons_if, hwv, ih, h0']

theorem keysWithValue_cons (k m w : Nat) (rest : List (Nat × Nat)) :
    keysWithValue ((k, m) :: rest) w =
      if m = w then k :: keysWithValue rest w else keysWithValue rest w := by
  by_cases h : m = w
  · simp [keysWithValue, h]
  · simp [keysWithValue, h, beq_false_of_ne h]

theorem combineGroup_nil (o : Option (List Nat)) : combineGroup o [] = o := by
  cases o <;> simp [combineGroup]

theorem combineGroup_getD_append (o : Option (List Nat)) (k : Nat) (l : List Nat) :
    combineGroup (some (o.getD [] ++ [k])) l = combineGroup o (k :: l) := by
  cases o <;> simp [combineGroup]

theorem lookup_foldl_insertMembership (ms : List (Nat × Nat)) :
    ∀ (acc : List (Nat × List Nat)) (w : Nat),
      (ms.foldl (fun acc kv => insertMembership acc kv.2 kv.1) acc).lookup w =
        combineGroup (acc.lookup w) (keysWithValue ms w) := by
  induction ms with
  | nil => intro acc w; simp [keysWithValue, combineGroup_nil]
  | cons hd rest ih =>
    intro acc w
    obtain ⟨k, m⟩ := hd
    simp only [List.foldl_cons]
    rw [ih (insertMembership acc m k) w, lookup_insertMembership, keysWithValue_cons]
    by_cases hwm : w = m
    · subst hwm
      simp only [eq_self_iff_true, if_true]
      rw [combineGroup_getD_append]
    · have hmw : ¬ m = w := by omega
      simp [hwm, hmw]

theorem lookup_reverse_memberships (ms : List (Nat × Nat)) (w : Nat) :
    (reverse_memberships ms).lookup w = combineGroup none (keysWithValue ms w) := by
  unfold reverse_memberships
  rw [lookup_foldl_insertMembership ms [] w]
  rfl

theorem keys_insertMembership (acc : List (Nat × List Nat)) (v k : Nat) :
    (insertMembership acc v k).map Prod.fst =
      if v ∈ acc.map Prod.fst then acc.map Prod.fst else acc.map Prod.fst ++ [v] := by
  induction acc with
  | nil => simp [insertMembership]
  | cons hd tl ih =>
    obtain ⟨v0, g0⟩ := hd
    by_cases h0 : v0 = v
    · subst h0; simp [insertMembership]
    · have h0' : ¬ v = v0 := by omega
      simp [insertMembership, h0, h0', ih]
      by_cases hv : v ∈ tl.map Prod.fst <;> simp [hv, h0']

theorem nodup_keys_insertMembership (acc : List (Nat × List Nat)) (v k : Nat)
    (h : (acc.map Prod.fst).Nodup) :
    ((insertMembership acc v k).map Prod.fst).Nodup := by
  rw [keys_insertMembership]
  by_cases hv : v ∈ acc.map Prod.fst
  · simp [hv, h]
  · simp [hv, h, List.nodup_append, List.disjoint_singleton]

theorem nodup_keys_foldl_insertMembership (ms : List (Nat × Nat)) :
    ∀ (acc : List (Nat × List Nat)), (acc.map Prod.fst).Nodup →
      ((ms.foldl (fun acc kv => insertMembership acc kv.2 kv.1) acc).map Prod.fst).Nodup := by
  induction ms with
  | nil => intro acc h; simpa using h
  | cons hd rest ih =>
    intro acc h
    simp only [List.foldl_cons]
    exact ih _ (nodup_keys_insertMembership acc hd.2 hd.1 h)

theorem nodup_keys_reverse_memberships (ms : List (Nat × Nat)) :
    ((reverse_memberships ms).map Prod.fst).Nodup :=
  nodup_keys_foldl_insertMembership ms [] (by simp)

theorem lookup_of_mem_nodup {β : Type} (l : List (Nat × β)) (k : Nat) (b : β)
    (hnd : (l.map Prod.fst).Nodup) (h : (k, b) ∈ l) : l.lookup k = some b := by
  induction l with
  | nil => cases h
  | cons hd tl ih =>
    obtain ⟨k0, b0⟩ := hd
    rw [lookup_cons_if]
    rcases List.mem_cons.mp h with heq | htl
    · obtain ⟨rfl, rfl⟩ := Prod.mk.injEq .. ▸ heq
      exact if_pos rfl
    · have hk : k ≠ k0 := by
        intro hkk
        subst hkk
        have : k ∈ tl.map Prod.fst := List.mem_map.mpr ⟨(k, b), htl, rfl⟩
        exact (List.nodup_cons.mp (by simpa using hnd)).1 this
      rw [if_neg hk]
      exact ih (List.nodup_cons.mp (by simpa using hnd)).2 htl

theorem mem_keys_of_lookup {β : Type} (l : List (Nat × β)) (k : Nat) (b : β)
    (h : l.lookup k = some b) : k ∈ l.map Prod.fst := by
  induction l with
  | nil => simp [List.lookup] at h
  | cons hd tl ih =>
    obtain ⟨k0, b0⟩ := hd
    rw [lookup_cons_if] at h
    by_cases hk : k = k0
    · simp [hk]
    · rw [if_neg hk] at h
      simp [ih h]

theorem mem_of_lookup {β : Type} (l : List (Nat × β)) (k : Nat) (b : β)
    (h : l.lookup k = some b) : (k, b) ∈ l := by
  induction l with
  | nil => simp [List.lookup] at h
  | cons hd tl ih =>
    obtain ⟨k0, b0⟩ := hd
    rw [lookup_cons_if] at h
    by_cases hk : k = k0
    · subst hk
      rw [if_pos rfl] at h
      obtain rfl := Option.some.injEq .. ▸ h
      exact List.mem_cons_self ..
    · rw [if_neg hk] at h
      exact List.mem_cons_of_mem _ (ih h)

theorem count_nodup_mem (l : List Nat) (hnd : l.Nodup) (a : Nat) :
    l.count a = if a ∈ l then 1 else 0 := by
  have h1 := (List.nodup_iff_count_le_one.mp hnd) a
  by_cases h : a ∈ l
  · have h2 : 0 < l.count a := List.count_pos_iff.mpr h
    simp only [if_pos h]
    omega
  · simp [List.count_eq_zero_of_not_mem h, h]

theorem countQ_pair_map (x a b : Nat) (xs : List Nat) :
    countQ (xs.map (fun y => (x, y))) a b = if x = a then xs.count b else 0 := by
  unfold countQ
  rw [List.countP_map]
  by_cases hxa : x = a
  · subst hxa
    rw [if_pos rfl]
    have hfun : ((fun e => e == (x, b)) ∘ (fun y => ((x, y) : Nat × Nat))) = (fun y => y == b) := by
      funext y
      show ((x, y) == (x, b)) = (y == b)
      rw [show ((x, y) == (x, b)) = (x == x && y == b) from rfl]
      simp
    rw [hfun]
    rfl
  · rw [if_neg hxa]
    refine List.countP_eq_zero.mpr ?_
    intro y _
    show ¬ ((x, y) == (a, b)) = true
    rw [show ((x, y) == (a, b)) = (x == a && y == b) from rfl]
    simp [hxa]

theorem countQ_append (l1 l2 : List (Nat × Nat)) (a b : Nat) :
    countQ (l1 ++ l2) a b = countQ l1 a b + countQ l2 a b :=
  List.countP_append ..

theorem countQ_combinations2 (l : List Nat) (hnd : l.Nodup) (a b : Nat) (hab : a ≠ b) :
    countQ (combinations2 l) a b + countQ (combinations2 l) b a =
      if a ∈ l ∧ b ∈ l then 1 else 0 := by
  induction l with
  | nil => simp [combinations2, countQ]
  | cons x xs ih =>
    have hx : x ∉ xs := (List.nodup_cons.mp hnd).1
    have hnd' : xs.Nodup := (List.nodup_cons.mp hnd).2
    have H := ih hnd'
    have hca := count_nodup_mem xs hnd' a
    have hcb := count_nodup_mem xs hnd' b
    simp only [combinations2, countQ_append]
    rw [countQ_pair_map, countQ_pair_map]
    by_cases hxa : x = a
    · subst hxa
      have hxb : ¬ x = b := hab
      have hbx : ¬ b = x := fun h => hab h.symm
      rw [if_pos rfl, if_neg hxb]
      have hcond : ¬ (x ∈ xs ∧ b ∈ xs) := fun hc => hx hc.1
      have H0 : countQ (combinations2 xs) x b + countQ (combinations2 xs) b x = 0 := by
        rw [H, if_neg hcond]
      rw [hcb]
      by_cases hmb : b ∈ xs <;> simp [List.mem_cons, hmb, hbx] <;> omega
    · by_cases hxb : x = b
      · subst hxb
        have hax : ¬ a = x := fun h => hxa h.symm
        rw [if_neg hxa, if_pos rfl]
        have hcond : ¬ (a ∈ xs ∧ x ∈ xs) := fun hc => hx hc.2
        have H0 : countQ (combinations2 xs) a x + countQ (combinations2 xs) x a = 0 := by
          rw [H, if_neg hcond]
        rw [hca]
        by_cases hma : a ∈ xs <;> simp [List.mem_cons, hma, hax] <;> omega
      · have hax : ¬ a = x := fun h => hxa h.symm
        have hbx : ¬ b = x := fun h => hxb h.symm
        rw [if_neg hxa, if_neg hxb]
        by_cases hma : a ∈ xs <;> by_cases hmb : b ∈ xs <;>
          simp only [List.mem_cons] <;>
          simp [hma, hmb, hax, hbx] at H ⊢ <;> omega

theorem sum_map_add_distrib {α : Type} (l : List α) (f g : α → Nat) :
    (l.map (fun x => f x + g x)).sum = (l.map f).sum + (l.map g).sum := by
  induction l with
  | nil => rfl
  | cons x xs ih =>
    simp only [List.map_cons, List.sum_cons, ih]
    omega

theorem sum_map_indicator (K : List Nat) (v0 c : Nat) (hnd : K.Nodup) :
    (K.map (fun v => if v = v0 then c else 0)).sum = if v0 ∈ K then c else 0 := by
  induction K with
  | nil => simp
  | cons x xs ih =>
    have hx : x ∉ xs := (List.nodup_cons.mp hnd).1
    have hnd' : xs.Nodup := (List.nodup_cons.mp hnd).2
    by_cases hxv : x = v0
    · subst hxv
      simp [List.mem_cons, ih hnd', hx]
    · have hvx : ¬ v0 = x := fun h => hxv h.symm
      simp [List.mem_cons, hxv, hvx, ih hnd']

theorem mem_keysWithValue (ms : List (Nat × Nat)) (z v : Nat) :
    z ∈ keysWithValue ms v ↔ (z, v) ∈ ms := by
  constructor
  · intro hz
    rcases List.mem_map.mp hz with ⟨kv, hkv, hfst⟩
    rcases List.mem_filter.mp hkv with ⟨hin, heqv⟩
    obtain ⟨k1, v1⟩ := kv
    have hv1 : v1 = v := by simpa using heqv
    have hk1 : k1 = z := hfst
    subst hv1; subst hk1
    exact hin
  · intro hz
    exact List.mem_map.mpr ⟨(z, v), List.mem_filter.mpr ⟨hz, by simp⟩, rfl⟩

theorem nodup_keysWithValue (ms : List (Nat × Nat)) (v : Nat)
    (hnd : (ms.map Prod.fst).Nodup) : (keysWithValue ms v).Nodup := by
  have hsub : (keysWithValue ms v).Sublist (ms.map Prod.fst) :=
    (List.filter_sublist ms).map Prod.fst
  exact List.Nodup.sublist hsub hnd

theorem gt_edges_count (ms : List (Nat × Nat)) (a b ma mb : Nat)
    (hnd : (ms.map Prod.fst).Nodup)
    (ha : (a, ma) ∈ ms) (hb : (b, mb) ∈ ms) (hab : a ≠ b) :
    edgeCount (gt_edges ms) a b = if ma = mb then 1 else 0 := by
  have hval_unique : ∀ (z v1 v2 : Nat), (z, v1) ∈ ms → (z, v2) ∈ ms → v1 = v2 := by
    intro z v1 v2 h1 h2
    have e1 := lookup_of_mem_nodup ms z v1 hnd h1
    have e2 := lookup_of_mem_nodup ms z v2 hnd h2
    rw [e1] at e2
    exact Option.some.inj e2
  have hentry : ∀ vg ∈ reverse_memberships ms,
      countQ (combinations2 vg.2) a b + countQ (combinations2 vg.2) b a =
        if vg.1 = ma ∧ vg.1 = mb then 1 else 0 := by
    intro vg hvg
    obtain ⟨v, gl⟩ := vg
    have hlk := lookup_of_mem_nodup _ v gl (nodup_keys_reverse_memberships ms) hvg
    rw [lookup_reverse_memberships] at hlk
    have hgl : gl = keysWithValue ms v := by
      rcases hkw : keysWithValue ms v with _ | ⟨y, ys⟩
      · rw [hkw] at hlk
        simp [combineGroup] at hlk
      · rw [hkw] at hlk
        simpa [combineGroup] using hlk.symm
    subst hgl
    rw [countQ_combinations2 _ (nodup_keysWithValue ms v hnd) a b hab]
    have ha2 : a ∈ keysWithValue ms v ↔ v = ma := by
      rw [mem_keysWithValue]
      exact ⟨fun h => hval_unique a v ma h ha, fun h => h ▸ ha⟩
    have hb2 : b ∈ keysWithValue ms v ↔ v = mb := by
      rw [mem_keysWithValue]
      exact ⟨fun h => hval_unique b v mb h hb, fun h => h ▸ hb⟩
    simp only [ha2, hb2]
  unfold edgeCount gt_edges countQ
  rw [List.countP_flatten, List.countP_flatten, List.map_map, List.map_map]
  rw [← sum_map_add_distrib]
  have hmapped :
      (reverse_memberships ms).map
        (fun vg => (List.countP (fun e => e == (a, b)) ∘ fun vg => combinations2 vg.2) vg +
          (List.countP (fun e => e == (b, a)) ∘ fun vg => combinations2 vg.2) vg) =
      (reverse_memberships ms).map (fun vg => if vg.1 = ma ∧ vg.1 = mb then 1 else 0) :=
    List.map_congr_left (fun vg hvg => hentry vg hvg)
  rw [hmapped]
  rw [show ((reverse_memberships ms).map (fun vg => if vg.1 = ma ∧ vg.1 = mb then 1 else 0)) =
      (((reverse_memberships ms).map Prod.fst).map (fun v => if v = ma ∧ v = mb then 1 else 0)) by
    rw [List.map_map]
    rfl]
  have hKnd := nodup_keys_reverse_memberships ms
  by_cases hmm : ma = mb
  · subst hmm
    rw [if_pos rfl]
    have hsimp : (((reverse_memberships ms).map Prod.fst).map (fun v => if v = ma ∧ v = ma then 1 else 0)) =
        (((reverse_memberships ms).map Prod.fst).map (fun v => if v = ma then 1 else 0)) := by
      refine List.map_congr_left (fun v _ => ?_)
      by_cases hv : v = ma <;> simp [hv]
    rw [hsimp, sum_map_indicator _ _ _ hKnd]
    have hmaK : ma ∈ (reverse_memberships ms).map Prod.fst := by
      have hane : a ∈ keysWithValue ms ma := (mem_keysWithValue ms a ma).mpr ha
      have hlk : (reverse_memberships ms).lookup ma = some (keysWithValue ms ma) := by
        rw [lookup_reverse_memberships]
        rcases hkw : keysWithValue ms ma with _ | ⟨y, ys⟩
        · rw [hkw] at hane; cases hane
        · simp [combineGroup]
      exact mem_keys_of_lookup _ ma _ hlk
    rw [if_pos hmaK]
  · rw [if_neg hmm]
    refine List.sum_eq_zero ?_
    intro x hx
    rcases List.mem_map.mp hx with ⟨v, _, hv⟩
    by_cases h1 : v = ma ∧ v = mb
    · exact absurd (h1.1.symm.trans h1.2) hmm
    · rw [if_neg h1] at hv
      exact hv.symm

/-- C3: in get_gt_graph, for distinct nodes a and b of a graph whose
nodes all carry membership labels, the edge set holds the unordered pair
of a and b exactly once when their labels agree and not at all when they
differ. -/
theorem C3_one_edge_per_shared_membership_pair (g : PyGraph) (a b : Nat)
    (da db : NodeData) (hnd : (g.nodes.map Prod.fst).Nodup)
    (ha : (a, da) ∈ g.nodes) (hb : (b, db) ∈ g.nodes) (hab : a ≠ b) :
    edgeCount (get_gt_graph g).edges a b =
      if da.membership = db.membership then 1 else 0 := by
  have hkeys : ((node_memberships g).map Prod.fst) = g.nodes.map Prod.fst := by
    simp [node_memberships]
  refine gt_edges_count (node_memberships g) a b da.membership db.membership ?_ ?_ ?_ hab
  · rw [hkeys]; exact hnd
  · exact List.mem_map.mpr ⟨(a, da), ha, rfl⟩
  · exact List.mem_map.mpr ⟨(b, db), hb, rfl⟩

/-- Witness for C3 on the ten-node toy scene: nodes 0 and 1 share
membership 0 and are joined by exactly one edge; the hypotheses hold by
evaluation. -/
theorem C3_one_edge_per_shared_membership_pair_witness :
    ((gToy.nodes.map Prod.fst).Nodup ∧ (0 : Nat) ≠ 1) ∧
      edgeCount (get_gt_graph gToy).edges 0 1 = 1 := by
  refine ⟨⟨by decide, by decide⟩, ?_⟩
  have h := C3_one_edge_per_shared_membership_pair gToy 0 1
    (node 0 0 0 0 "#27c7bd").2 (node 1 1 0 0 "#27c7bd").2
    (by decide) (by decide) (by decide) (by decide)
  simpa using h

/-- C4: get_gt_graph is idempotent on edge sets; indeed the edge list of
a second application coincides with the first, because the derivation
depends only on the node attributes, which the copy keeps. -/
theorem C4_get_gt_graph_idempotent (g : PyGraph) :
    (get_gt_graph (get_gt_graph g)).edges = (get_gt_graph g).edges := rfl

/-- C5 as stated is false: in draw_gt_graph, convex-hull rendering is
attempted based on the number of collected points counted with
multiplicity, not the number of distinct points. In gHull a group of
three members occupies only two distinct positions, yet the hull branch
is taken. -/
theorem C5_counterexample_hull_with_two_distinct_points :
    draw_gt_graph_groups gHull =
      [(Enclosure.hull [[0, 0], [0, 0], [1, 1]], [[0, 0], [0, 0], [1, 1]])] ∧
    ([[0, 0], [0, 0], [1, 1]] : List (List ℚ)).dedup.length = 2 := by
  constructor
  · decide
  · decide

/-- C5 amended: the enclosure of a membership group in draw_gt_graph is
decided by the number of collected member points with multiplicity: the
convex hull on more than two, the thick translucent line on exactly two,
and no enclosure on fewer, with a marker placed per member in every
case. -/
theorem C5_amended_enclosure_by_group_size (g : PyGraph) (e : Enclosure)
    (pts : List (List ℚ)) (h : (e, pts) ∈ draw_gt_graph_groups g) :
    (2 < pts.length → e = Enclosure.hull pts) ∧
    (pts.length = 2 → e = Enclosure.line pts) ∧
    (pts.length < 2 → e = Enclosure.nothing) := by
  rcases List.mem_map.mp h with ⟨group, -, heq⟩
  simp only at heq
  injection heq with h1 h2
  subst h2
  subst h1
  refine ⟨fun hl => ?_, fun hl => ?_, fun hl => ?_⟩
  · simp [group_enclosure, hl]
  · have h2 : ¬ (2 < (points_for_convex_hull g group).length) := by omega
    simp [group_enclosure, h2, hl]
  · have h2 : ¬ (2 < (points_for_convex_hull g group).length) := by omega
    have h3 : ¬ ((points_for_convex_hull g group).length = 2) := by omega
    simp [group_enclosure, h2, h3]

/-- Witness for the amended C5 on gPair: its single group of two people
takes the line-indicator path. -/
theorem C5_amended_enclosure_by_group_size_witness :
    ((Enclosure.line [[0, 0], [1, 0]], ([[0, 0], [1, 0]] : List (List ℚ))) ∈
        draw_gt_graph_groups gPair) ∧
      Enclosure.line [[0, 0], [1, 0]] = Enclosure.line [[0, 0], [1, 0]] :=
  ⟨by decide,
    (C5_amended_enclosure_by_group_size gPair _ _ (by decide)).2.1 (by decide)⟩

/-- C1 fails on the code: evaluated at cfgA, whose frustum_length is 2.0,
frustum_angle 0.5, edge_cutoff 0.9, features_as_pos False and
edges_from_gt True, every constructed command line instead carries the
hardcoded tokens frustum_length 1, frustum_angle 0.7853981633974483,
edge_cutoff 0.4, features_as_pos True, edges_from_gt False and
n_epochs 50, each exactly once, and never the configured values: the
values read from the configuration for these keys are not interpolated. -/
theorem C1_hardcoded_slots_ignore_config :
    ∃ cmds, train_folds_commands cfgA "data/salsa_cpp" = Except.ok cmds ∧
      cmds.length = 5 ∧
      ∀ c ∈ cmds,
        (cmdTokens c).count "common.frustum_length=1" = 1 ∧
        (cmdTokens c).count "common.frustum_length=2.0" = 0 ∧
        (cmdTokens c).count "common.frustum_angle=0.7853981633974483" = 1 ∧
        (cmdTokens c).count "common.frustum_angle=0.5" = 0 ∧
        (cmdTokens c).count "common.edge_cutoff=0.4" = 1 ∧
        (cmdTokens c).count "common.edge_cutoff=0.9" = 0 ∧
        (cmdTokens c).count "common.features_as_pos=True" = 1 ∧
        (cmdTokens c).count "common.features_as_pos=False" = 0 ∧
        (cmdTokens c).count "common.edges_from_gt=False" = 1 ∧
        (cmdTokens c).count "common.edges_from_gt=True" = 0 ∧
        (cmdTokens c).count "n_epochs=50" = 1 := by
  refine ⟨_, rfl, rfl, ?_⟩
  decide

/-- C2 fails on the code: on an index holding a.jpg at time 0 and b.jpg
at time 10 (the trailing line is dropped), the lookup for timestamp 1
returns b.jpg, although a.jpg is the entry with the nearest timestamp:
find_nearest_idx is a bisect-left insertion index, not a
nearest-timestamp search. -/
theorem C2_between_entries_not_nearest :
    parse_index "a.jpg 0.0\nb.jpg 10.0\nc.jpg 20.0\n" =
      some ([0, 10], ["a.jpg", "b.jpg"]) ∧
    (draw_camera_cocktail "a.jpg 0.0\nb.jpg 10.0\nc.jpg 20.0\n" 1).1 =
      some "b.jpg" ∧
    ((1 : ℚ) - 0 < 10 - 1) := by
  refine ⟨by decide, by decide, by norm_num⟩

/-- C6 fails on the code: every invocation of draw_camera_cocktail reads
the index file exactly once, because the nested get_cached_index_file
and its lru_cache are recreated empty inside each invocation; two calls
on the same camera path hence perform two reads, not one. -/
theorem C6_index_file_read_on_every_call :
    (∀ content timestamp, (draw_camera_cocktail content timestamp).2 = 1) ∧
    draw_camera_cocktail_total_reads "a.jpg 0.0\nb.jpg 10.0\nc.jpg 20.0\n" [1, 2] = 2 := by
  constructor
  · intro content t
    rcases hp : parse_index content with - | v <;>
      simp [draw_camera_cocktail, get_cached_index_file, hp]
  · decide

/-- C7 as stated is false: at cfgA with base path data/salsa_cpp the five
constructed commands all write into the same experiment folder,
experiments_salsa_cpp_folds_new_edge_weights; the output directory is
derived from the dataset folder alone and is not fold-specific. -/
theorem C7_counterexample_shared_experiment_folder :
    ∃ cmds, train_folds cfgA "data/salsa_cpp" = Except.ok cmds ∧
      cmds.length = 5 ∧
      ¬ (cmds.map TrainerCmd.experiment_folder).Nodup ∧
      cmds.map TrainerCmd.experiment_folder =
        List.replicate 5 "experiments_salsa_cpp_folds_new_edge_weights" := by
  refine ⟨_, rfl, rfl, ?_, ?_⟩
  · decide
  · decide

/-- C7 amended: for every configuration supplying the read keys and every
base dataset path, train_folds constructs exactly five trainer commands,
one per fold k from 1 to 5, whose dataset path is the base path suffixed
by the fold marker and joined with train, and whose experiment output
folder is the single directory named after the dataset folder, the same
for every fold. -/
theorem C7_amended_five_folds (best_config : List (String × JVal))
    (dataset_path : String) (arch drop creg ncl lr fl fa ec fap : JVal)
    (hcommon : best_config.lookup "common" = none)
    (h1 : best_config.lookup "architecture" = some arch)
    (h2 : best_config.lookup "dropout_rate" = some drop)
    (h3 : best_config.lookup "collapse_regularization" = some creg)
    (h4 : best_config.lookup "n_clusters" = some ncl)
    (h5 : best_config.lookup "learning_rate" = some lr)
    (h6 : best_config.lookup "frustum_length" = some fl)
    (h7 : best_config.lookup "frustum_angle" = some fa)
    (h8 : best_config.lookup "edge_cutoff" = some ec)
    (h9 : best_config.lookup "features_as_pos" = some fap) :
    ∃ cmds, train_folds best_config dataset_path = Except.ok cmds ∧
      cmds.length = 5 ∧
      (∀ k, k < 5 →
        (cmds.getD k default).dataset_path =
          path_join (dataset_path ++ "_fold" ++ toString (k + 1)) "train" ∧
        (cmds.getD k default).experiment_folder =
          "experiments_" ++ basename dataset_path ++ "_folds_new_edge_weights") := by
  refine ⟨(List.range' 1 5).map
      (fold_cmd arch.interp creg.interp drop.interp ncl.interp lr.interp dataset_path),
    ?_, by simp, ?_⟩
  · simp only [train_folds, unwrap_common, hcommon, h1, h2, h3, h4, h5, h6, h7, h8, h9]
  · intro k hk
    interval_cases k <;> exact ⟨rfl, rfl⟩

/-- Witness for the amended C7 at cfgA and base path data/salsa_cpp. -/
theorem C7_amended_five_folds_witness :
    cfgA.lookup "common" = none ∧
    ∃ cmds, train_folds cfgA "data/salsa_cpp" = Except.ok cmds ∧
      cmds.length = 5 ∧
      (∀ k, k < 5 →
        (cmds.getD k default).dataset_path =
          path_join ("data/salsa_cpp" ++ "_fold" ++ toString (k + 1)) "train" ∧
        (cmds.getD k default).experiment_folder =
          "experiments_" ++ basename "data/salsa_cpp" ++ "_folds_new_edge_weights") :=
  ⟨rfl, C7_amended_five_folds cfgA "data/salsa_cpp" _ _ _ _ _ _ _ _ _
    rfl rfl rfl rfl rfl rfl rfl rfl rfl rfl⟩

/-- C8 as stated is false for edges_from_gt: cfgB lacks that key, yet
train_folds succeeds, substituting the default False instead of raising
a lookup failure. -/
theorem C8_counterexample_edges_from_gt_defaulted :
    cfgB.lookup "edges_from_gt" = none ∧
    ∃ cmds, train_folds cfgB "data/salsa_cpp" = Except.ok cmds :=
  ⟨rfl, ⟨_, rfl⟩⟩

/-- C8 amended: a configuration missing any of the nine unconditionally
subscripted hyperparameter keys (architecture, dropout_rate,
collapse_regularization, n_clusters, learning_rate, frustum_length,
frustum_angle, edge_cutoff, features_as_pos) makes train_folds raise an
uncaught lookup failure with no default substituted; only edges_from_gt
is defaulted. -/
theorem C8_amended_missing_required_key_errors
    (best_config : List (String × JVal)) (dataset_path : String) (key : String)
    (hcommon : best_config.lookup "common" = none)
    (hkey : key ∈ required_keys) (hmiss : best_config.lookup key = none) :
    ∃ e, train_folds best_config dataset_path = Except.error e := by
  have hun : unwrap_common best_config = Except.ok best_config := by
    simp [unwrap_common, hcommon]
  simp only [train_folds, hun]
  rcases h1 : best_config.lookup "architecture" with - | v1
  · exact ⟨PyErr.keyError "architecture", by simp only [h1]⟩
  simp only [h1]
  rcases h2 : best_config.lookup "dropout_rate" with - | v2
  · exact ⟨PyErr.keyError "dropout_rate", by simp only [h2]⟩
  simp only [h2]
  rcases h3 : best_config.lookup "collapse_regularization" with - | v3
  · exact ⟨PyErr.keyError "collapse_regularization", by simp only [h3]⟩
  simp only [h3]
  rcases h4 : best_config.lookup "n_clusters" with - | v4
  · exact ⟨PyErr.keyError "n_clusters", by simp only [h4]⟩
  simp only [h4]
  rcases h5 : best_config.lookup "learning_rate" with - | v5
  · exact ⟨PyErr.keyError "learning_rate", by simp only [h5]⟩
  simp only [h5]
  rcases h6 : best_config.lookup "frustum_length" with - | v6
  · exact ⟨PyErr.keyError "frustum_length", by simp only [h6]⟩
  simp only [h6]
  rcases h7 : best_config.lookup "frustum_angle" with - | v7
  · exact ⟨PyErr.keyError "frustum_angle", by simp only [h7]⟩
  simp only [h7]
  rcases h8 : best_config.lookup "edge_cutoff" with - | v8
  · exact ⟨PyErr.keyError "edge_cutoff", by simp only [h8]⟩
  simp only [h8]
  rcases h9 : best_config.lookup "features_as_pos" with - | v9
  · exact ⟨PyErr.keyError "features_as_pos", by simp only [h9]⟩
  simp only [h9]
  simp only [required_keys, List.mem_cons, List.not_mem_nil, or_false] at hkey
  rcases hkey with rfl | rfl | rfl | rfl | rfl | rfl | rfl | rfl | rfl
  · rw [hmiss] at h1; cases h1
  · rw [hmiss] at h2; cases h2
  · rw [hmiss] at h3; cases h3
  · rw [hmiss] at h4; cases h4
  · rw [hmiss] at h5; cases h5
  · rw [hmiss] at h6; cases h6
  · rw [hmiss] at h7; cases h7
  · rw [hmiss] at h8; cases h8
  · rw [hmiss] at h9; cases h9

/-- Witness for the amended C8: cfgC lacks dropout_rate and train_folds
fails with an error. -/
theorem C8_amended_missing_required_key_errors_witness :
    (cfgC.lookup "dropout_rate" = none ∧ "dropout_rate" ∈ required_keys) ∧
    ∃ e, train_folds cfgC "data/salsa_cpp" = Except.error e :=
  ⟨⟨rfl, by decide⟩,
    C8_amended_missing_required_key_errors cfgC "data/salsa_cpp" "dropout_rate"
      rfl (by decide) rfl⟩

/-- C9: when the video read of draw_camera returns no frame, no exception
is raised and nothing is drawn on the panel, while the axis is still
turned off and titled Camera View. -/
theorem C9_failed_read_blank_panel (video_path : String) (timestamp : ℚ) :
    (draw_camera video_path timestamp none).2 =
      [AxAction.axisOff, AxAction.setTitle "Camera View"] ∧
    (∀ frame, AxAction.imshow frame ∉ (draw_camera video_path timestamp none).2) := by
  constructor
  · rfl
  · intro frame hmem
    simp [draw_camera] at hmem

/-- C10: on an index whose parsed entries are a.jpg at 0 and b.jpg at 10,
a query at 25 exceeds every indexed timestamp, find_nearest_idx returns
2, the length of the parsed lists, and the image lookup of
draw_camera_cocktail goes out of range instead of returning the last
entry. -/
theorem C10_query_past_last_entry_out_of_range :
    parse_index "a.jpg 0.0\nb.jpg 10.0\nc.jpg 20.0\n" =
      some ([0, 10], ["a.jpg", "b.jpg"]) ∧
    ((0 : ℚ) < 25 ∧ (10 : ℚ) < 25) ∧
    find_nearest_idx [0, 10] 25 = 2 ∧
    (["a.jpg", "b.jpg"] : List String).length = 2 ∧
    (draw_camera_cocktail "a.jpg 0.0\nb.jpg 10.0\nc.jpg 20.0\n" 25).1 = none := by
  refine ⟨by decide, ⟨by decide, by decide⟩, by decide, by decide, by decide⟩

end DMoNRewrite

